import Mathlib

/-!
A shallow embedding of `ant_nest/ant.py`: the `Ant` orchestrator — the
pipeline runner (`_handle_thing_with_pipelines`), the tenacity-based retry
policy (`make_retry_decorator` and its use in `request`), the per-host
session pool inside `_request`, the periodic reporter (`report`), and the
lifecycle methods `open`, `close`, `main`, `collect`.
-/

namespace AntNest

/-- Python exception values that flow through the engine. -/
inductive Err where
  | thingDropped (code : Nat)
  | timeoutErr
  | generic (code : Nat)
  | retryExhausted
deriving DecidableEq, Repr

/-- Whether an exception value is an instance of the `ThingDropped` class. -/
def Err.isDropErr : Err → Bool
  | Err.thingDropped _ => true
  | _ => false

/-- An HTTP response as the retry predicate sees it (`res.status`). -/
structure Resp where
  status : Nat
  body : Nat
deriving DecidableEq, Repr

/-- A Python value flowing through a pipeline chain: a `Thing`
(Request / Response / Item), `None`, or an `Exception` instance
(`process` may return any of these). -/
inductive PyVal where
  | requestV (v : Nat)
  | responseV (r : Resp)
  | itemV (v : Nat)
  | noneV
  | exc (e : Err)
deriving DecidableEq, Repr

/-- `thing.__class__.__name__`, the key `Ant.report` counts under. -/
def pyClassName : PyVal → String
  | PyVal.requestV _ => "Request"
  | PyVal.responseV _ => "Response"
  | PyVal.itemV _ => "Item"
  | PyVal.noneV => "NoneType"
  | PyVal.exc (Err.thingDropped _) => "ThingDropped"
  | PyVal.exc Err.timeoutErr => "TimeoutError"
  | PyVal.exc (Err.generic _) => "Exception"
  | PyVal.exc Err.retryExhausted => "RetryError"

/-- One `[count_at_last_report, total]` cell of the report defaultdicts. -/
structure Counts where
  baseline : Nat
  total : Nat
deriving DecidableEq, Repr

/-- One log line emitted by the periodic flush inside `Ant.report`. -/
structure LogEntry where
  dropped : Bool
  name : String
  total : Nat
  delta : Nat
deriving DecidableEq, Repr

/-- Reporter state: `_reports` and `_drop_reports` (insertion-ordered
defaultdicts), `_last_time`, `_report_slot`. -/
structure ReporterState where
  reports : List (String × Counts)
  dropReports : List (String × Counts)
  lastTime : Nat
  reportSlot : Nat
deriving DecidableEq, Repr

/-- `Ant.__init__`: empty counters, `_last_time = start`, `_report_slot = 60`. -/
def initialReporter (start : Nat) : ReporterState := ⟨[], [], start, 60⟩

/-- `counts[1]` for a kind; `0` when the defaultdict has no entry yet. -/
def totalOf : List (String × Counts) → String → Nat
  | [], _ => 0
  | (n, c) :: rest, k => if n = k then c.total else totalOf rest k

/-- `counts[0]` for a kind; `0` when absent. -/
def baselineOf : List (String × Counts) → String → Nat
  | [], _ => 0
  | (n, c) :: rest, k => if n = k then c.baseline else baselineOf rest k

/-- The flush loop of `Ant.report`: for every tracked kind, log the running
total `counts[1]` and the delta `counts[1] - counts[0]`, then set
`counts[0] = counts[1]`. -/
def flushMap (dropped : Bool) : List (String × Counts) → List (String × Counts) × List LogEntry
  | [] => ([], [])
  | (n, c) :: rest =>
    let r := flushMap dropped rest
    ((n, ⟨c.total, c.total⟩) :: r.1, ⟨dropped, n, c.total, c.total - c.baseline⟩ :: r.2)

/-- `reports[report_type][1] += 1` with defaultdict semantics: a missing
kind is inserted (at the end, in insertion order) as `[0, 0]` first. -/
def bumpMap : List (String × Counts) → String → List (String × Counts)
  | [], name => [(name, ⟨0, 1⟩)]
  | (n, c) :: rest, name =>
    if n = name then (n, ⟨c.baseline, c.total + 1⟩) :: rest
    else (n, c) :: bumpMap rest name

/-- `Ant.report(thing, dropped)`: when strictly more than `_report_slot` has
elapsed since `_last_time`, flush both maps and set `_last_time = now`; then
increment the delivered or dropped counter for the thing's class name. -/
def reportCall (rs : ReporterState) (name : String) (dropped : Bool) (now : Nat) :
    ReporterState × List LogEntry :=
  let fl :=
    if now - rs.lastTime > rs.reportSlot then
      let r := flushMap false rs.reports
      let d := flushMap true rs.dropReports
      ({ rs with reports := r.1, dropReports := d.1, lastTime := now }, r.2 ++ d.2)
    else (rs, [])
  if dropped then
    ({ fl.1 with dropReports := bumpMap fl.1.dropReports name }, fl.2)
  else
    ({ fl.1 with reports := bumpMap fl.1.reports name }, fl.2)

/-- aiohttp's `DEFAULT_TIMEOUT` (5 minutes), the default `timeout` of
`_handle_thing_with_pipelines` and the default `Ant.request_timeout`. -/
def DEFAULT_TIMEOUT : Nat := 300

/-- A pipeline stage: `process` may return a plain value or a coroutine; a
returned coroutine is awaited under `async_timeout.timeout` and takes
`duration` time-units to finish with value `result input`. -/
structure Pipeline where
  id : Nat
  isCoroutine : Bool
  duration : Nat
  result : PyVal → PyVal

/-- Running one stage either yields the value `process` produced (after the
optional await) or raises while awaiting (the timeout firing). -/
inductive StageOutcome where
  | value (v : PyVal)
  | raised (e : Err)

/-- One iteration of the loop in `_handle_thing_with_pipelines`:
`thing = pipeline.process(thing)`, awaited under the timeout bound when the
returned object is a coroutine. -/
def processStage (T : Nat) (p : Pipeline) (v : PyVal) : StageOutcome :=
  if p.isCoroutine = true ∧ T < p.duration then StageOutcome.raised Err.timeoutErr
  else StageOutcome.value (p.result v)

/-- What a full run of `_handle_thing_with_pipelines` produces: the returned
thing or the raised exception, the updated reporter state, the flush log
lines, and the ids of the stages whose `process` ran, in order. -/
structure HandleResult where
  outcome : Except Err PyVal
  rstate : ReporterState
  logs : List LogEntry
  invoked : List Nat

/-- The stage loop of `_handle_thing_with_pipelines`: `raw` is the saved
`raw_thing`; when a stage's result is an `Exception` instance, report `raw`
as dropped and raise that result; otherwise feed it to the next stage. -/
def handleThingGo (T now : Nat) (raw : PyVal) (rs : ReporterState) :
    PyVal → List Pipeline → HandleResult
  | v, [] => ⟨Except.ok v, rs, [], []⟩
  | v, p :: ps =>
    match processStage T p v with
    | StageOutcome.raised e => ⟨Except.error e, rs, [], [p.id]⟩
    | StageOutcome.value w =>
      match w with
      | PyVal.exc e =>
        let rl := reportCall rs (pyClassName raw) true now
        ⟨Except.error e, rl.1, rl.2, [p.id]⟩
      | _ =>
        let r := handleThingGo T now raw rs w ps
        ⟨r.outcome, r.rstate, r.logs, p.id :: r.invoked⟩

/-- `_handle_thing_with_pipelines(thing, pipelines, timeout)`:
`raw_thing = thing`, then the stage loop. -/
def handleThingWithPipelines (T now : Nat) (rs : ReporterState) (v : PyVal)
    (ps : List Pipeline) : HandleResult :=
  handleThingGo T now v rs v ps

/-- A stage that, under bound `T`, neither times out nor returns an
`Exception` instance on any input. -/
def benignStage (T : Nat) (p : Pipeline) : Prop :=
  (p.isCoroutine = true → p.duration ≤ T) ∧ ∀ v e, p.result v ≠ PyVal.exc e

/-- The tenacity retry predicate built by `make_retry_decorator`:
`retry_if_result(lambda res: res.status >= 500) | retry_if_exception_type()`. -/
def shouldRetry : Except Err Resp → Bool
  | Except.ok r => 500 ≤ r.status
  | Except.error _ => true

/-- Decidable equality for `Except` values over decidable components. -/
instance instDecEqExcept {ε α : Type} [DecidableEq ε] [DecidableEq α] :
    DecidableEq (Except ε α) := fun a b =>
  match a, b with
  | Except.ok x, Except.ok y =>
    if h : x = y then Decidable.isTrue (by rw [h])
    else Decidable.isFalse (fun hc => h (Except.ok.inj hc))
  | Except.error x, Except.error y =>
    if h : x = y then Decidable.isTrue (by rw [h])
    else Decidable.isFalse (fun hc => h (Except.error.inj hc))
  | Except.ok _, Except.error _ => Decidable.isFalse (fun hc => Except.noConfusion hc)
  | Except.error _, Except.ok _ => Decidable.isFalse (fun hc => Except.noConfusion hc)

/-- What one send ultimately yields to `request`: a response, a raised
exception, or tenacity's `RetryError` on attempt-budget exhaustion. -/
inductive SendResult where
  | ok (r : Resp)
  | raised (e : Err)
  | retryError (last : Except Err Resp)
deriving DecidableEq, Repr

/-- An attempt's outcome surfaced without retry wrapping. -/
def sendOutcome : Except Err Resp → SendResult
  | Except.ok r => SendResult.ok r
  | Except.error e => SendResult.raised e

/-- The attempt loop of the tenacity-wrapped call. `fuel` further attempts
are allowed after the current one (`stop_after_attempt(retries + 1)`); `i`
is the 1-based attempt number; `oracle i` is what the transport does on
attempt `i`. Returns the result and the number of attempts made. -/
def retryGo (oracle : Nat → Except Err Resp) : Nat → Nat → SendResult × Nat
  | 0, i =>
    if shouldRetry (oracle i) then (SendResult.retryError (oracle i), i)
    else (sendOutcome (oracle i), i)
  | fuel + 1, i =>
    if shouldRetry (oracle i) then retryGo oracle fuel (i + 1)
    else (sendOutcome (oracle i), i)

/-- The send step of `Ant.request`: when `retries > 0` the transport call is
wrapped by `make_retry_decorator(retries, delay)`; otherwise it is called
once, bare. -/
def requestSend (retries : Nat) (oracle : Nat → Except Err Resp) : SendResult × Nat :=
  if 0 < retries then retryGo oracle retries 1
  else (sendOutcome (oracle 1), 1)

/-- The configurable surface of an `Ant` instance used by the claims. -/
structure Ant where
  requestPipelines : List Pipeline
  responsePipelines : List Pipeline
  itemPipelines : List Pipeline
  requestTimeout : Nat
  requestRetries : Nat
  requestRetryDelay : Nat

/-- What `Ant.collect` produces for its caller. -/
structure CollectOutcome where
  result : Except Err Unit
  rstate : ReporterState

/-- `Ant.collect(item)`: run the item through the item pipelines — with the
library default timeout, `collect` passes no `timeout` argument — then
`report(item)`; returns `None`. -/
def collectOp (ant : Ant) (rs : ReporterState) (now : Nat) (item : PyVal) :
    CollectOutcome :=
  let r := handleThingWithPipelines DEFAULT_TIMEOUT now rs item ant.itemPipelines
  match r.outcome with
  | Except.error e => ⟨Except.error e, r.rstate⟩
  | Except.ok _ =>
    let rl := reportCall r.rstate (pyClassName item) false now
    ⟨Except.ok (), rl.1⟩

/-- What `Ant.request` produces, plus how many transport calls were made. -/
structure RequestOutcome where
  result : Except Err PyVal
  rstate : ReporterState
  transportCalls : Nat

/-- `Ant.request`: request pipelines (bounded by `request_timeout`) →
`report(req)` → retry-wrapped send → response pipelines → `report(res)`. -/
def requestOp (ant : Ant) (rs : ReporterState) (now : Nat) (req : PyVal)
    (oracle : Nat → Except Err Resp) : RequestOutcome :=
  let r1 := handleThingWithPipelines ant.requestTimeout now rs req ant.requestPipelines
  match r1.outcome with
  | Except.error e => ⟨Except.error e, r1.rstate, 0⟩
  | Except.ok req2 =>
    let rl := reportCall r1.rstate (pyClassName req2) false now
    let sr := requestSend ant.requestRetries oracle
    match sr.1 with
    | SendResult.raised e => ⟨Except.error e, rl.1, sr.2⟩
    | SendResult.retryError _ => ⟨Except.error Err.retryExhausted, rl.1, sr.2⟩
    | SendResult.ok resp =>
      let r2 := handleThingWithPipelines ant.requestTimeout now rl.1
        (PyVal.responseV resp) ant.responsePipelines
      match r2.outcome with
      | Except.error e => ⟨Except.error e, r2.rstate, sr.2⟩
      | Except.ok res2 =>
        let rl2 := reportCall r2.rstate (pyClassName res2) false now
        ⟨Except.ok res2, rl2.1, sr.2⟩

/-- A pooled `aiohttp.ClientSession`: an object identity and a cookie jar. -/
structure Session where
  sid : Nat
  cookieJar : List (String × String)
deriving DecidableEq, Repr

/-- `self.sessions` plus a supply of fresh session identities. -/
structure SessionPool where
  sessions : List (String × Session)
  nextSid : Nat
deriving DecidableEq, Repr

/-- `host in self.sessions` / `self.sessions[host]`. -/
def lookupSession : List (String × Session) → String → Option Session
  | [], _ => none
  | (h, s) :: rest, host => if h = host then some s else lookupSession rest host

/-- Replace the cached session for a host already present. -/
def setSession : List (String × Session) → String → Session → List (String × Session)
  | [], host, s => [(host, s)]
  | (h, s0) :: rest, host, s =>
    if h = host then (h, s) :: rest else (h, s0) :: setSession rest host s

/-- Set one cookie, overwriting an existing cookie of the same name. -/
def setCookie (jar : List (String × String)) (k v : String) : List (String × String) :=
  if jar.any (fun p => p.1 = k) then
    jar.map (fun p => if p.1 = k then (k, v) else p)
  else jar ++ [(k, v)]

/-- `cookie_jar.update_cookies(cookies)`: merge into the jar; a new value
overwrites an old cookie of the same name. -/
def updateCookies (jar : List (String × String)) (cookies : List (String × String)) :
    List (String × String) :=
  cookies.foldl (fun j p => setCookie j p.1 p.2) jar

/-- The value stored in a jar under a cookie name, if any. -/
def cookieVal : List (String × String) → String → Option String
  | [], _ => none
  | (k, v) :: rest, key => if k = key then some v else cookieVal rest key

/-- The session logic of `_request` (`host = req.url.host`): reuse the
cached session for the host, merging the request's cookies into its jar, or
create a new session seeded with those cookies and cache it. -/
def acquireSession (pool : SessionPool) (host : String)
    (cookies : Option (List (String × String))) : Session × SessionPool :=
  match lookupSession pool.sessions host with
  | none =>
    let jar := match cookies with
      | some cs => updateCookies [] cs
      | none => []
    let s : Session := ⟨pool.nextSid, jar⟩
    (s, ⟨pool.sessions ++ [(host, s)], pool.nextSid + 1⟩)
  | some s =>
    match cookies with
    | none => (s, pool)
    | some cs =>
      let s2 : Session := ⟨s.sid, updateCookies s.cookieJar cs⟩
      (s2, ⟨setSession pool.sessions host s2, pool.nextSid⟩)

/-- A sound pool: distinct cached sessions have distinct identities and all
identities are below the fresh supply. -/
def PoolWF (pool : SessionPool) : Prop :=
  (pool.sessions.map (fun p => p.2.sid)).Nodup ∧
  ∀ x ∈ pool.sessions.map (fun p => p.2.sid), x < pool.nextSid

/-- A pipeline as the lifecycle hooks see it: which hooks raise. -/
structure HookPipeline where
  id : Nat
  openFails : Bool
  closeFails : Bool
deriving DecidableEq, Repr

/-- The hook loop of `Ant.open` / `Ant.close`: each hook runs inside a
try/except, so a raise is logged and the loop continues. Returns the
invoked pipeline ids in order and the ids whose hook raised. -/
def runHooks : List HookPipeline → (HookPipeline → Bool) → List Nat × List Nat
  | [], _ => ([], [])
  | p :: ps, fails =>
    let r := runHooks ps fails
    (p.id :: r.1, if fails p then p.id :: r.2 else r.2)

/-- `Ant.open`: iterate `itertools.chain(item_pipelines, response_pipelines,
request_pipelines)` calling `on_spider_open` under a try/except. -/
def openAnt (itemP respP reqP : List HookPipeline) : List Nat × List Nat :=
  runHooks (itemP ++ respP ++ reqP) (fun p => p.openFails)

/-- The invocation order asserted by the specification sentence: all request
pipelines, then all response pipelines, then all item pipelines. -/
def openOrderClaimed (itemP respP reqP : List HookPipeline) : List Nat :=
  ((reqP ++ respP) ++ itemP).map (fun p => p.id)

/-- A pooled session at shutdown: closing it may raise. -/
structure CloseSession where
  sid : Nat
  closeRaises : Bool
deriving DecidableEq, Repr

/-- The session loop of `Ant.close`: `await session.close()` with no
try/except around it — a raise aborts the loop and propagates. Returns the
ids of the sessions actually closed and the propagated error, if any. -/
def closeSessionsRun : List CloseSession → List Nat × Option Nat
  | [] => ([], none)
  | s :: rest =>
    if s.closeRaises then ([], some s.sid)
    else
      let r := closeSessionsRun rest
      (s.sid :: r.1, r.2)

/-- `Ant.close`: the close hooks (isolated, chain order), then the session
close loop. -/
def closeAnt (itemP respP reqP : List HookPipeline) (sessions : List CloseSession) :
    (List Nat × List Nat) × (List Nat × Option Nat) :=
  (runHooks (itemP ++ respP ++ reqP) (fun p => p.closeFails), closeSessionsRun sessions)

/-- The observable steps of `Ant.main`. -/
inductive MainEvent where
  | openCall
  | logException (e : Nat)
  | waitScheduled
  | closeCall
  | totalReport
deriving DecidableEq, Repr

/-- The `try/except` around `await self.run()`: a raised exception is logged
and never re-raised. -/
def runStep : Except Nat Unit → List MainEvent
  | Except.ok _ => []
  | Except.error e => [MainEvent.logException e]

/-- `Ant.main`: open, run under try/except, wait for scheduled coroutines,
close, wait again, then the total report. -/
def mainTrace (runResult : Except Nat Unit) : List MainEvent :=
  MainEvent.openCall :: runStep runResult ++
    [MainEvent.waitScheduled, MainEvent.closeCall, MainEvent.waitScheduled,
     MainEvent.totalReport]

/-! Concrete fixtures used to exercise the definitions. -/

/-- A stage that passes its input through unchanged. -/
def stageIdentity : Pipeline := ⟨1, false, 0, fun v => v⟩

/-- A stage that returns `None`. -/
def stageNone : Pipeline := ⟨2, false, 0, fun _ => PyVal.noneV⟩

/-- A stage that returns a `ThingDropped` exception instance. -/
def stageDropped : Pipeline := ⟨3, false, 0, fun _ => PyVal.exc (Err.thingDropped 3)⟩

/-- A stage placed after a dropping stage; it must never run there. -/
def stageAfter : Pipeline := ⟨4, false, 0, fun _ => PyVal.itemV 9⟩

/-- A stage that returns a plain, non-`ThingDropped` exception instance. -/
def stageGenericErr : Pipeline := ⟨5, false, 0, fun _ => PyVal.exc (Err.generic 7)⟩

/-- A coroutine stage slower than the library default timeout. -/
def stageSlow : Pipeline := ⟨6, true, 400, fun v => v⟩

/-- A coroutine stage finishing in 200 time-units that maps `None` to one
item and everything else to another. -/
def stageFromNone : Pipeline :=
  ⟨7, true, 200, fun v =>
    match v with
    | PyVal.noneV => PyVal.itemV 5
    | _ => PyVal.itemV 9⟩

/-- A transport behaviour: attempt 1 raises, attempt 2 returns a 503, later
attempts return a 200. -/
def oracleFlaky : Nat → Except Err Resp := fun i =>
  if i = 1 then Except.error Err.timeoutErr
  else if i = 2 then Except.ok ⟨503, 0⟩
  else Except.ok ⟨200, 7⟩

/-- A pool holding one session for host `"a"`. -/
def poolA : SessionPool := ⟨[("a", ⟨0, [("x", "1"), ("y", "2")]⟩)], 1⟩

/-- A reporter state with some recorded traffic whose flush is due at
`now = 100`. -/
def reporterBusy : ReporterState := ⟨[("Item", ⟨2, 5⟩)], [("Request", ⟨0, 1⟩)], 0, 60⟩

/-! Helper lemmas about the reporter. -/

theorem totalOf_flushMap (dropped : Bool) (m : List (String × Counts)) (k : String) :
    totalOf (flushMap dropped m).1 k = totalOf m k := by
  induction m with
  | nil => rfl
  | cons hd tl ih =>
    obtain ⟨n, c⟩ := hd
    simp only [flushMap, totalOf]
    split <;> simp [ih]

theorem baselineOf_flushMap (dropped : Bool) (m : List (String × Counts)) (k : String) :
    baselineOf (flushMap dropped m).1 k = totalOf m k := by
  induction m with
  | nil => rfl
  | cons hd tl ih =>
    obtain ⟨n, c⟩ := hd
    simp only [flushMap, baselineOf, totalOf]
    split <;> simp [ih]

theorem flushMap_log_mem (dropped : Bool) (m : List (String × Counts))
    (p : String × Counts) (hp : p ∈ m) :
    (⟨dropped, p.1, p.2.total, p.2.total - p.2.baseline⟩ : LogEntry) ∈ (flushMap dropped m).2 := by
  induction m with
  | nil => cases hp
  | cons hd tl ih =>
    obtain ⟨n, c⟩ := hd
    rcases List.mem_cons.mp hp with h | h
    · subst h
      simp [flushMap]
    · simp only [flushMap, List.mem_cons]
      exact Or.inr (ih h)

theorem totalOf_bumpMap (m : List (String × Counts)) (name k : String) :
    totalOf (bumpMap m name) k = totalOf m k + (if k = name then 1 else 0) := by
  induction m with
  | nil =>
    simp only [bumpMap, totalOf]
    split_ifs <;> simp_all
  | cons hd tl ih =>
    obtain ⟨n, c⟩ := hd
    simp only [bumpMap]
    simp only [totalOf]
    by_cases h1 : n = name <;> by_cases h2 : n = k <;> by_cases h3 : k = name <;>
      simp_all [totalOf]

theorem baselineOf_bumpMap (m : List (String × Counts)) (name k : String) :
    baselineOf (bumpMap m name) k = baselineOf m k := by
  induction m with
  | nil =>
    simp only [bumpMap, baselineOf]
    split <;> rfl
  | cons hd tl ih =>
    obtain ⟨n, c⟩ := hd
    simp only [bumpMap]
    by_cases h1 : n = name
    · rw [if_pos h1]
      simp only [baselineOf]
    · rw [if_neg h1]
      simp only [baselineOf]
      split
      · rfl
      · exact ih

theorem reportCall_total_reports (rs : ReporterState) (name : String) (dropped : Bool)
    (now : Nat) (k : String) :
    totalOf (reportCall rs name dropped now).1.reports k =
      totalOf rs.reports k + (if dropped = false ∧ k = name then 1 else 0) := by
  unfold reportCall
  by_cases hf : now - rs.lastTime > rs.reportSlot
  · rw [if_pos hf]
    cases dropped <;> simp [totalOf_bumpMap, totalOf_flushMap]
  · rw [if_neg hf]
    cases dropped <;> simp [totalOf_bumpMap]

theorem reportCall_total_drops (rs : ReporterState) (name : String) (dropped : Bool)
    (now : Nat) (k : String) :
    totalOf (reportCall rs name dropped now).1.dropReports k =
      totalOf rs.dropReports k + (if dropped = true ∧ k = name then 1 else 0) := by
  unfold reportCall
  by_cases hf : now - rs.lastTime > rs.reportSlot
  · rw [if_pos hf]
    cases dropped <;> simp [totalOf_bumpMap, totalOf_flushMap]
  · rw [if_neg hf]
    cases dropped <;> simp [totalOf_bumpMap]

theorem reportCall_lastTime (rs : ReporterState) (name : String) (dropped : Bool)
    (now : Nat) :
    (reportCall rs name dropped now).1.lastTime =
      if now - rs.lastTime > rs.reportSlot then now else rs.lastTime := by
  unfold reportCall
  by_cases hf : now - rs.lastTime > rs.reportSlot
  · rw [if_pos hf, if_pos hf]
    cases dropped <;> simp
  · rw [if_neg hf, if_neg hf]
    cases dropped <;> simp

theorem reportCall_logs (rs : ReporterState) (name : String) (dropped : Bool)
    (now : Nat) (hf : now - rs.lastTime > rs.reportSlot) :
    (reportCall rs name dropped now).2 =
      (flushMap false rs.reports).2 ++ (flushMap true rs.dropReports).2 := by
  unfold reportCall
  rw [if_pos hf]
  cases dropped <;> simp

theorem reportCall_baseline_reports (rs : ReporterState) (name : String) (dropped : Bool)
    (now : Nat) (k : String) (hf : now - rs.lastTime > rs.reportSlot) :
    baselineOf (reportCall rs name dropped now).1.reports k = totalOf rs.reports k := by
  unfold reportCall
  rw [if_pos hf]
  cases dropped <;> simp [baselineOf_bumpMap, baselineOf_flushMap]

theorem reportCall_baseline_drops (rs : ReporterState) (name : String) (dropped : Bool)
    (now : Nat) (k : String) (hf : now - rs.lastTime > rs.reportSlot) :
    baselineOf (reportCall rs name dropped now).1.dropReports k = totalOf rs.dropReports k := by
  unfold reportCall
  rw [if_pos hf]
  cases dropped <;> simp [baselineOf_bumpMap, baselineOf_flushMap]

/-! Helper lemmas about the pipeline runner. -/

theorem handleThingGo_ok (T now : Nat) (raw : PyVal) (rs : ReporterState) :
    ∀ (ps : List Pipeline) (v w : PyVal),
      (handleThingGo T now raw rs v ps).outcome = Except.ok w →
      handleThingGo T now raw rs v ps =
        ⟨Except.ok w, rs, [], ps.map (fun p => p.id)⟩ := by
  intro ps
  induction ps with
  | nil =>
    intro v w h
    simp only [handleThingGo] at h ⊢
    injection h with h
    rw [h]
    simp
  | cons p ps ih =>
    intro v w h
    simp only [handleThingGo] at h ⊢
    cases hps : processStage T p v with
    | raised e =>
      rw [hps] at h
      simp at h
    | value wv =>
      rw [hps] at h
      cases wv with
      | exc e => simp at h
      | requestV x =>
        simp at h
        simp [ih (PyVal.requestV x) w h]
      | responseV x =>
        simp at h
        simp [ih (PyVal.responseV x) w h]
      | itemV x =>
        simp at h
        simp [ih (PyVal.itemV x) w h]
      | noneV =>
        simp at h
        simp [ih PyVal.noneV w h]

theorem handleThingGo_append_ok (T now : Nat) (raw : PyVal) (rs : ReporterState) :
    ∀ (ps₁ ps₂ : List Pipeline) (v w : PyVal),
      (handleThingGo T now raw rs v ps₁).outcome = Except.ok w →
      handleThingGo T now raw rs v (ps₁ ++ ps₂) =
        ⟨(handleThingGo T now raw rs w ps₂).outcome,
         (handleThingGo T now raw rs w ps₂).rstate,
         (handleThingGo T now raw rs w ps₂).logs,
         ps₁.map (fun p => p.id) ++ (handleThingGo T now raw rs w ps₂).invoked⟩ := by
  intro ps₁
  induction ps₁ with
  | nil =>
    intro ps₂ v w h
    simp only [handleThingGo] at h
    injection h with h
    subst h
    simp
  | cons p ps ih =>
    intro ps₂ v w h
    simp only [handleThingGo] at h
    simp only [List.cons_append, handleThingGo]
    cases hps : processStage T p v with
    | raised e =>
      rw [hps] at h
      simp at h
    | value wv =>
      rw [hps] at h
      cases wv with
      | exc e => simp at h
      | requestV x =>
        simp at h
        simp [ih ps₂ (PyVal.requestV x) w h]
      | responseV x =>
        simp at h
        simp [ih ps₂ (PyVal.responseV x) w h]
      | itemV x =>
        simp at h
        simp [ih ps₂ (PyVal.itemV x) w h]
      | noneV =>
        simp at h
        simp [ih ps₂ PyVal.noneV w h]

theorem handleThingGo_benign (T now : Nat) (raw : PyVal) (rs : ReporterState) :
    ∀ (ps : List Pipeline) (v : PyVal), (∀ p ∈ ps, benignStage T p) →
      handleThingGo T now raw rs v ps =
        ⟨Except.ok (ps.foldl (fun w p => p.result w) v), rs, [], ps.map (fun p => p.id)⟩ := by
  intro ps
  induction ps with
  | nil =>
    intro v _
    simp [handleThingGo]
  | cons p ps ih =>
    intro v hb
    have hbp : benignStage T p := hb p (by simp)
    have hbs : ∀ q ∈ ps, benignStage T q := fun q hq => hb q (List.mem_cons_of_mem _ hq)
    have hstage : processStage T p v = StageOutcome.value (p.result v) := by
      unfold processStage
      rw [if_neg]
      intro hc
      exact absurd (hbp.1 hc.1) (Nat.not_le.mpr hc.2)
    simp only [handleThingGo, hstage]
    cases hres : p.result v with
    | exc e => exact absurd hres (hbp.2 v e)
    | requestV x =>
      simp [List.foldl_cons, hres, ih (PyVal.requestV x) hbs]
    | responseV x =>
      simp [List.foldl_cons, hres, ih (PyVal.responseV x) hbs]
    | itemV x =>
      simp [List.foldl_cons, hres, ih (PyVal.itemV x) hbs]
    | noneV =>
      simp [List.foldl_cons, hres, ih PyVal.noneV hbs]

/-! Helper lemma about the retry loop. -/

theorem retryGo_spec (oracle : Nat → Except Err Resp) :
    ∀ (fuel i : Nat),
      i ≤ (retryGo oracle fuel i).2 ∧
      (retryGo oracle fuel i).2 ≤ i + fuel ∧
      (∀ j, i ≤ j → j < (retryGo oracle fuel i).2 → shouldRetry (oracle j) = true) ∧
      ((retryGo oracle fuel i).2 < i + fuel → shouldRetry (oracle (retryGo oracle fuel i).2) = false) := by
  intro fuel
  induction fuel with
  | zero =>
    intro i
    have h2 : (retryGo oracle 0 i).2 = i := by
      unfold retryGo
      split <;> rfl
    rw [h2]
    exact ⟨le_refl i, by omega, fun j hj hlt => by omega, by omega⟩
  | succ fuel ih =>
    intro i
    by_cases hsr : shouldRetry (oracle i) = true
    · have hred : retryGo oracle (fuel + 1) i = retryGo oracle fuel (i + 1) := by
        simp only [retryGo]
        rw [if_pos hsr]
      rw [hred]
      obtain ⟨a, b, c, d⟩ := ih (i + 1)
      refine ⟨by omega, by omega, ?_, fun h => d (by omega)⟩
      intro j hj hlt
      by_cases hji : j = i
      · rw [hji]
        exact hsr
      · exact c j (by omega) hlt
    · have hsr2 : shouldRetry (oracle i) = false := by
        cases hx : shouldRetry (oracle i)
        · rfl
        · exact absurd hx hsr
      have hred : retryGo oracle (fuel + 1) i = (sendOutcome (oracle i), i) := by
        simp only [retryGo]
        rw [if_neg hsr]
      rw [hred]
      exact ⟨le_refl i, by omega, fun j hj hlt => by omega, fun _ => hsr2⟩

/-! Helper lemmas about the session pool and cookie jars. -/

theorem lookupSession_mem : ∀ (l : List (String × Session)) (host : String) (s : Session),
    lookupSession l host = some s → (host, s) ∈ l := by
  intro l
  induction l with
  | nil => intro host s h; cases h
  | cons hd tl ih =>
    intro host s h
    obtain ⟨x, t⟩ := hd
    simp only [lookupSession] at h
    by_cases hx : x = host
    · rw [if_pos hx] at h
      injection h with h
      subst hx
      subst h
      simp
    · rw [if_neg hx] at h
      exact List.mem_cons_of_mem _ (ih host s h)

theorem lookupSession_setSession_self : ∀ (l : List (String × Session)) (host : String)
    (s : Session), lookupSession (setSession l host s) host = some s := by
  intro l
  induction l with
  | nil => intro host s; simp [setSession, lookupSession]
  | cons hd tl ih =>
    intro host s
    obtain ⟨x, t⟩ := hd
    simp only [setSession]
    by_cases hx : x = host
    · rw [if_pos hx]
      simp [lookupSession, hx]
    · rw [if_neg hx]
      simp only [lookupSession]
      rw [if_neg hx]
      exact ih host s

theorem lookupSession_setSession_other : ∀ (l : List (String × Session)) (host h2 : String)
    (s : Session), h2 ≠ host → lookupSession (setSession l host s) h2 = lookupSession l h2 := by
  intro l
  induction l with
  | nil =>
    intro host h2 s hne
    simp only [setSession, lookupSession]
    rw [if_neg (fun h : host = h2 => hne h.symm)]
  | cons hd tl ih =>
    intro host h2 s hne
    obtain ⟨x, t⟩ := hd
    simp only [setSession]
    by_cases hx : x = host
    · rw [if_pos hx]
      simp only [lookupSession]
      rw [if_neg (fun h : x = h2 => hne (h.symm.trans hx)),
        if_neg (fun h : x = h2 => hne (h.symm.trans hx))]
    · rw [if_neg hx]
      simp only [lookupSession]
      by_cases hx2 : x = h2
      · rw [if_pos hx2, if_pos hx2]
      · rw [if_neg hx2, if_neg hx2]
        exact ih host h2 s hne

theorem setSession_keys : ∀ (l : List (String × Session)) (host : String) (s0 s : Session),
    lookupSession l host = some s0 →
    (setSession l host s).map Prod.fst = l.map Prod.fst := by
  intro l
  induction l with
  | nil => intro host s0 s h; cases h
  | cons hd tl ih =>
    intro host s0 s h
    obtain ⟨x, t⟩ := hd
    simp only [lookupSession] at h
    simp only [setSession]
    by_cases hx : x = host
    · rw [if_pos hx]
      simp
    · rw [if_neg hx] at h ⊢
      simp [ih host s0 s h]

theorem setSession_sids : ∀ (l : List (String × Session)) (host : String) (s0 : Session)
    (jar : List (String × String)), lookupSession l host = some s0 →
    (setSession l host ⟨s0.sid, jar⟩).map (fun p => p.2.sid) = l.map (fun p => p.2.sid) := by
  intro l
  induction l with
  | nil => intro host s0 jar h; cases h
  | cons hd tl ih =>
    intro host s0 jar h
    obtain ⟨x, t⟩ := hd
    simp only [lookupSession] at h
    simp only [setSession]
    by_cases hx : x = host
    · rw [if_pos hx]
      rw [if_pos hx] at h
      injection h with h
      subst h
      simp
    · rw [if_neg hx] at h ⊢
      simp [ih host s0 jar h]

theorem lookupSession_append_new : ∀ (l : List (String × Session)) (host : String) (s : Session),
    lookupSession l host = none → lookupSession (l ++ [(host, s)]) host = some s := by
  intro l
  induction l with
  | nil => intro host s _; simp [lookupSession]
  | cons hd tl ih =>
    intro host s h
    obtain ⟨x, t⟩ := hd
    simp only [lookupSession] at h ⊢
    by_cases hx : x = host
    · rw [if_pos hx] at h
      cases h
    · rw [if_neg hx] at h ⊢
      exact ih host s h

theorem lookupSession_append_other : ∀ (l : List (String × Session)) (host h2 : String)
    (s : Session), h2 ≠ host → lookupSession (l ++ [(host, s)]) h2 = lookupSession l h2 := by
  intro l
  induction l with
  | nil =>
    intro host h2 s hne
    simp only [List.nil_append, lookupSession]
    rw [if_neg (fun h : host = h2 => hne h.symm)]
  | cons hd tl ih =>
    intro host h2 s hne
    obtain ⟨x, t⟩ := hd
    simp only [lookupSession]
    by_cases hx : x = h2
    · rw [if_pos hx, if_pos hx]
    · rw [if_neg hx, if_neg hx]
      exact ih host h2 s hne

theorem cookieVal_none_of_not_mem : ∀ (cs : List (String × String)) (a : String),
    a ∉ cs.map Prod.fst → cookieVal cs a = none := by
  intro cs
  induction cs with
  | nil => intro a _; rfl
  | cons hd tl ih =>
    intro a h
    obtain ⟨x, y⟩ := hd
    simp only [List.map_cons, List.mem_cons] at h
    push_neg at h
    simp only [cookieVal]
    rw [if_neg (fun hx => h.1 hx.symm)]
    exact ih a h.2

theorem cookieVal_mapReplace_self : ∀ (jar : List (String × String)) (a b : String),
    jar.any (fun p => p.1 = a) = true →
    cookieVal (jar.map (fun p => if p.1 = a then (a, b) else p)) a = some b := by
  intro jar
  induction jar with
  | nil => intro a b h; cases h
  | cons hd tl ih =>
    intro a b h
    obtain ⟨x, y⟩ := hd
    simp only [List.map_cons]
    by_cases hx : x = a
    · rw [if_pos hx]
      simp [cookieVal]
    · rw [if_neg hx]
      simp only [cookieVal]
      rw [if_neg hx]
      apply ih a b
      simp only [List.any_cons] at h
      rcases Bool.or_eq_true_iff.mp h with h | h
      · exact absurd (of_decide_eq_true h) hx
      · exact h

theorem cookieVal_mapReplace_other : ∀ (jar : List (String × String)) (a b k : String),
    k ≠ a →
    cookieVal (jar.map (fun p => if p.1 = a then (a, b) else p)) k = cookieVal jar k := by
  intro jar
  induction jar with
  | nil => intro a b k _; rfl
  | cons hd tl ih =>
    intro a b k hk
    obtain ⟨x, y⟩ := hd
    simp only [List.map_cons]
    by_cases hx : x = a
    · rw [if_pos hx]
      simp only [cookieVal]
      rw [if_neg (fun h : a = k => hk h.symm), if_neg (fun h : x = k => hk (h.symm.trans hx))]
      exact ih a b k hk
    · rw [if_neg hx]
      simp only [cookieVal]
      by_cases hxk : x = k
      · rw [if_pos hxk, if_pos hxk]
      · rw [if_neg hxk, if_neg hxk]
        exact ih a b k hk

theorem cookieVal_append_single_self : ∀ (jar : List (String × String)) (a b : String),
    jar.any (fun p => p.1 = a) = false → cookieVal (jar ++ [(a, b)]) a = some b := by
  intro jar
  induction jar with
  | nil => intro a b _; simp [cookieVal]
  | cons hd tl ih =>
    intro a b h
    obtain ⟨x, y⟩ := hd
    simp only [List.any_cons, Bool.or_eq_false_iff] at h
    simp only [List.cons_append, cookieVal]
    rw [if_neg (of_decide_eq_false h.1)]
    exact ih a b h.2

theorem cookieVal_append_single_other : ∀ (jar : List (String × String)) (a b k : String),
    k ≠ a → cookieVal (jar ++ [(a, b)]) k = cookieVal jar k := by
  intro jar
  induction jar with
  | nil =>
    intro a b k hk
    simp only [List.nil_append, cookieVal]
    rw [if_neg (fun h => hk h.symm)]
  | cons hd tl ih =>
    intro a b k hk
    obtain ⟨x, y⟩ := hd
    simp only [List.cons_append, cookieVal]
    by_cases hxk : x = k
    · rw [if_pos hxk, if_pos hxk]
    · rw [if_neg hxk, if_neg hxk]
      exact ih a b k hk

theorem cookieVal_setCookie_self (jar : List (String × String)) (a b : String) :
    cookieVal (setCookie jar a b) a = some b := by
  unfold setCookie
  by_cases h : jar.any (fun p => p.1 = a) = true
  · rw [if_pos h]
    exact cookieVal_mapReplace_self jar a b h
  · rw [if_neg h]
    exact cookieVal_append_single_self jar a b (Bool.eq_false_iff.mpr h)

theorem cookieVal_setCookie_other (jar : List (String × String)) (a b k : String)
    (hk : k ≠ a) : cookieVal (setCookie jar a b) k = cookieVal jar k := by
  unfold setCookie
  by_cases h : jar.any (fun p => p.1 = a) = true
  · rw [if_pos h]
    exact cookieVal_mapReplace_other jar a b k hk
  · rw [if_neg h]
    exact cookieVal_append_single_other jar a b k hk

theorem cookieVal_updateCookies : ∀ (cs jar : List (String × String)) (k : String),
    (cs.map Prod.fst).Nodup →
    cookieVal (updateCookies jar cs) k =
      (match cookieVal cs k with
       | some v => some v
       | none => cookieVal jar k) := by
  intro cs
  induction cs with
  | nil => intro jar k _; rfl
  | cons hd tl ih =>
    intro jar k hnd
    obtain ⟨a, b⟩ := hd
    simp only [List.map_cons, List.nodup_cons] at hnd
    have step : updateCookies jar ((a, b) :: tl) = updateCookies (setCookie jar a b) tl := rfl
    rw [step, ih (setCookie jar a b) k hnd.2]
    simp only [cookieVal]
    by_cases hak : a = k
    · subst hak
      have : cookieVal tl a = none :=
        cookieVal_none_of_not_mem tl a hnd.1
      rw [this, if_pos rfl]
      exact cookieVal_setCookie_self jar a b
    · rw [if_neg hak]
      cases hc : cookieVal tl k with
      | some v => rfl
      | none => exact cookieVal_setCookie_other jar a b k (fun h => hak h.symm)

theorem poolWF_distinct (pool : SessionPool) (hwf : PoolWF pool) :
    ∀ (h1 h2 : String) (s1 s2 : Session), h1 ≠ h2 →
      lookupSession pool.sessions h1 = some s1 →
      lookupSession pool.sessions h2 = some s2 → s1.sid ≠ s2.sid := by
  intro h1 h2 s1 s2 hne hl1 hl2 heq
  have m1 := lookupSession_mem _ _ _ hl1
  have m2 := lookupSession_mem _ _ _ hl2
  have := List.inj_on_of_nodup_map hwf.1 m1 m2 heq
  exact hne (congrArg Prod.fst this)

theorem poolWF_acquire (pool : SessionPool) (host : String)
    (cookies : Option (List (String × String))) (hwf : PoolWF pool) :
    PoolWF (acquireSession pool host cookies).2 := by
  unfold acquireSession
  cases hl : lookupSession pool.sessions host with
  | none =>
    have hnotin : pool.nextSid ∉ pool.sessions.map (fun p => p.2.sid) := by
      intro hmem
      exact absurd (hwf.2 _ hmem) (lt_irrefl _)
    constructor
    · simp only [List.map_append, List.map_cons, List.map_nil]
      rw [List.nodup_append]
      exact ⟨hwf.1, List.nodup_singleton _, by simpa using hnotin⟩
    · intro x hx
      simp only [List.map_append, List.map_cons, List.map_nil, List.mem_append,
        List.mem_singleton] at hx
      rcases hx with hx | hx
      · exact Nat.lt_succ_of_lt (hwf.2 x hx)
      · rw [hx]
        exact Nat.lt_succ_self _
  | some s =>
    cases cookies with
    | none => exact hwf
    | some cs =>
      constructor
      · rw [setSession_sids pool.sessions host s _ hl]
        exact hwf.1
      · rw [setSession_sids pool.sessions host s _ hl]
        exact hwf.2

/-! Helper lemmas about the lifecycle hook and session-close loops. -/

theorem runHooks_eq : ∀ (ps : List HookPipeline) (f : HookPipeline → Bool),
    runHooks ps f = (ps.map (fun p => p.id), (ps.filter f).map (fun p => p.id)) := by
  intro ps
  induction ps with
  | nil => intro f; rfl
  | cons p ps ih =>
    intro f
    simp only [runHooks, ih f, List.map_cons, List.filter_cons]
    by_cases hf : f p = true
    · rw [if_pos hf, if_pos hf]
      simp
    · rw [if_neg hf, if_neg hf]

theorem closeSessionsRun_all_ok : ∀ (sessions : List CloseSession),
    (∀ s ∈ sessions, s.closeRaises = false) →
    closeSessionsRun sessions = (sessions.map (fun s => s.sid), none) := by
  intro sessions
  induction sessions with
  | nil => intro _; rfl
  | cons s rest ih =>
    intro h
    have hs : s.closeRaises = false := h s (by simp)
    simp only [closeSessionsRun]
    rw [if_neg (by rw [hs]; exact Bool.false_ne_true)]
    rw [ih (fun q hq => h q (List.mem_cons_of_mem _ hq))]
    simp

theorem closeSessionsRun_fail : ∀ (pre : List CloseSession) (bad : CloseSession)
    (post : List CloseSession), (∀ s ∈ pre, s.closeRaises = false) →
    bad.closeRaises = true →
    closeSessionsRun (pre ++ bad :: post) = (pre.map (fun s => s.sid), some bad.sid) := by
  intro pre
  induction pre with
  | nil =>
    intro bad post _ hbad
    simp only [List.nil_append, closeSessionsRun]
    rw [if_pos hbad]
    simp
  | cons s rest ih =>
    intro bad post hpre hbad
    have hs : s.closeRaises = false := hpre s (by simp)
    simp only [List.cons_append, closeSessionsRun]
    rw [if_neg (by rw [hs]; exact Bool.false_ne_true)]
    simp only [List.append_eq]
    rw [ih bad post (fun q hq => hpre q (List.mem_cons_of_mem _ hq)) hbad]
    simp

/-! The claim theorems. -/

/-- C7: `main()` executes the shutdown sequence unconditionally — when the
user-supplied `run()` raises, the exception is caught and logged and the
wait-for-all-scheduled, `close()`, second wait, and final summary steps are
still executed, in that order. -/
theorem c7_main_shutdown (e : Nat) :
    mainTrace (Except.error e) =
      [MainEvent.openCall, MainEvent.logException e, MainEvent.waitScheduled,
       MainEvent.closeCall, MainEvent.waitScheduled, MainEvent.totalReport] := rfl

/-- C4 counterexample: with one item pipeline (id 1) and one request
pipeline (id 2), `open()` invokes the hooks in the order `[1, 2]` — item
pipeline first — which differs from the claimed request-then-response-
then-item order `[2, 1]`. -/
theorem c4_counterexample :
    (openAnt [⟨1, false, false⟩] [] [⟨2, false, false⟩]).1 = [1, 2] ∧
    (openAnt [⟨1, false, false⟩] [] [⟨2, false, false⟩]).1 ≠
      openOrderClaimed [⟨1, false, false⟩] [] [⟨2, false, false⟩] := by
  exact ⟨rfl, by decide⟩

/-- C4 (amended): `open()` invokes the open hook of every pipeline in the
order all item pipelines, then all response pipelines, then all request
pipelines (each list in declared order); a hook failure in one pipeline is
only logged and does not prevent the remaining hooks from being invoked. -/
theorem c4_open_order (itemP respP reqP : List HookPipeline) :
    (openAnt itemP respP reqP).1 = (itemP ++ respP ++ reqP).map (fun p => p.id) ∧
    (openAnt itemP respP reqP).2 =
      ((itemP ++ respP ++ reqP).filter (fun p => p.openFails)).map (fun p => p.id) := by
  unfold openAnt
  rw [runHooks_eq]
  exact ⟨rfl, rfl⟩

/-- C5 counterexample: with two pooled sessions where closing the first
raises, `close()` closes no further session — session 1 stays open and the
error propagates — so session-close failures are not isolated. -/
theorem c5_counterexample :
    (closeAnt [] [] [] [⟨0, true⟩, ⟨1, false⟩]).2.1 = [] ∧
    (1 : Nat) ∉ (closeAnt [] [] [] [⟨0, true⟩, ⟨1, false⟩]).2.1 ∧
    (closeAnt [] [] [] [⟨0, true⟩, ⟨1, false⟩]).2.2 = some 0 := by
  exact ⟨rfl, by decide, rfl⟩

/-- C5 (amended): during `close()` the pooled sessions are closed in
iteration order; when no close raises, every pooled session is closed, but
an error raised while closing one session propagates and prevents the
remaining sessions from being closed. Pipeline close hooks, by contrast,
are all invoked regardless of hook failures. -/
theorem c5_close_sessions (itemP respP reqP : List HookPipeline)
    (pre : List CloseSession) (bad : CloseSession) (post sessions : List CloseSession) :
    ((∀ s ∈ sessions, s.closeRaises = false) →
      (closeAnt itemP respP reqP sessions).2 = (sessions.map (fun s => s.sid), none)) ∧
    ((∀ s ∈ pre, s.closeRaises = false) → bad.closeRaises = true →
      (closeAnt itemP respP reqP (pre ++ bad :: post)).2 =
        (pre.map (fun s => s.sid), some bad.sid)) ∧
    (closeAnt itemP respP reqP sessions).1.1 =
      (itemP ++ respP ++ reqP).map (fun p => p.id) := by
  refine ⟨?_, ?_, ?_⟩
  · intro h
    unfold closeAnt
    rw [closeSessionsRun_all_ok sessions h]
  · intro h1 h2
    unfold closeAnt
    rw [closeSessionsRun_fail pre bad post h1 h2]
  · unfold closeAnt
    rw [runHooks_eq]

/-- C5 witness: a pool of two well-behaved sessions is fully closed with no
propagated error. -/
theorem c5_witness :
    (closeAnt [] [] [] [⟨7, false⟩, ⟨8, false⟩]).2 = ([7, 8], none) := by
  exact (c5_close_sessions [] [] [] [] ⟨0, true⟩ [] [⟨7, false⟩, ⟨8, false⟩]).1 (by decide)

/-- C2: the send is retried exactly when an attempt raised or returned a
status ≥ 500 response — every attempt before the final one satisfied the
retry trigger, and if the loop stopped before exhausting the budget the
final attempt did not — with at most `retries + 1` total attempts, and with
`retries = 0` the transport is called exactly once with no retry wrapping. -/
theorem c2_retry_policy (retries : Nat) (oracle : Nat → Except Err Resp) :
    1 ≤ (requestSend retries oracle).2 ∧
    (requestSend retries oracle).2 ≤ retries + 1 ∧
    (∀ j, 1 ≤ j → j < (requestSend retries oracle).2 → shouldRetry (oracle j) = true) ∧
    ((requestSend retries oracle).2 < retries + 1 →
      shouldRetry (oracle (requestSend retries oracle).2) = false) ∧
    (retries = 0 → requestSend retries oracle = (sendOutcome (oracle 1), 1)) := by
  by_cases hr : 0 < retries
  · have hred : requestSend retries oracle = retryGo oracle retries 1 := by
      unfold requestSend
      rw [if_pos hr]
    rw [hred]
    obtain ⟨a, b, c, d⟩ := retryGo_spec oracle retries 1
    exact ⟨a, by omega, c, fun h => d (by omega), fun h0 => absurd h0 (by omega)⟩
  · have h0 : retries = 0 := by omega
    subst h0
    have hred : requestSend 0 oracle = (sendOutcome (oracle 1), 1) := rfl
    rw [hred]
    exact ⟨le_refl 1, by omega, fun j hj hlt => by omega, fun h => by omega, fun _ => rfl⟩

/-- C2 witness: with `retries = 3` and a transport that raises on attempt 1,
returns 503 on attempt 2 and 200 on attempt 3, attempt 2 satisfied the
retry trigger and the send makes exactly 3 attempts. -/
theorem c2_witness :
    shouldRetry (oracleFlaky 2) = true ∧ (requestSend 3 oracleFlaky).2 = 3 := by
  exact ⟨(c2_retry_policy 3 oracleFlaky).2.2.1 2 (by decide) (by decide), by decide⟩

/-- C9: a stage whose process result is any non-Exception value — `None`
included — does not terminate the chain: each stage's output is fed to the
next stage (the fold), and when no stage yields an Exception the runner
returns the last stage's output unchanged, records nothing, and invokes
every stage. -/
theorem c9_non_exception_continues (T now : Nat) (rs : ReporterState) (v : PyVal)
    (ps : List Pipeline) (hb : ∀ p ∈ ps, benignStage T p) :
    handleThingWithPipelines T now rs v ps =
      ⟨Except.ok (ps.foldl (fun w p => p.result w) v), rs, [], ps.map (fun p => p.id)⟩ := by
  unfold handleThingWithPipelines
  exact handleThingGo_benign T now v rs ps v hb

/-- C9 witness: a chain whose first stage returns `None` and whose second
stage maps `None` to an item runs to completion: `None` is fed onward, both
stages are invoked, the final output is returned, and nothing is recorded. -/
theorem c9_witness :
    handleThingWithPipelines DEFAULT_TIMEOUT 0 (initialReporter 0) (PyVal.itemV 1)
        [stageNone, stageFromNone] =
      ⟨Except.ok (PyVal.itemV 5), initialReporter 0, [], [2, 7]⟩ := by
  have h := c9_non_exception_continues DEFAULT_TIMEOUT 0 (initialReporter 0) (PyVal.itemV 1)
    [stageNone, stageFromNone] ?hb
  · rw [h]
    rfl
  case hb =>
    intro p hp
    rcases List.mem_cons.mp hp with h1 | h1
    · subst h1
      exact ⟨fun hco => by simp [stageNone] at hco, fun v e hne => by simp [stageNone] at hne⟩
    · rcases List.mem_cons.mp h1 with h2 | h2
      · subst h2
        refine ⟨fun _ => by decide, fun v e hne => ?_⟩
        cases v <;> simp [stageFromNone] at hne
      · cases h2

/-- C10: `collect(item)` runs the item-pipeline chain with the library
default timeout: it is unaffected by the configured `request_timeout`, a
coroutine stage slower than `DEFAULT_TIMEOUT` times out no matter how large
`request_timeout` is, and on success `collect` returns `None`. -/
theorem c10_collect_default_timeout (ant : Ant) (t now : Nat) (rs : ReporterState)
    (item : PyVal) (p : Pipeline) :
    (collectOp { ant with requestTimeout := t } rs now item = collectOp ant rs now item) ∧
    (ant.itemPipelines = [p] → p.isCoroutine = true → DEFAULT_TIMEOUT < p.duration →
      (collectOp ant rs now item).result = Except.error Err.timeoutErr) ∧
    (∀ w, (handleThingWithPipelines DEFAULT_TIMEOUT now rs item ant.itemPipelines).outcome =
      Except.ok w → (collectOp ant rs now item).result = Except.ok ()) := by
  refine ⟨rfl, ?_, ?_⟩
  · intro hip hco hdur
    have hstage : processStage DEFAULT_TIMEOUT p item = StageOutcome.raised Err.timeoutErr := by
      unfold processStage
      rw [if_pos ⟨hco, hdur⟩]
    unfold collectOp handleThingWithPipelines
    rw [hip]
    simp only [handleThingGo, hstage]
  · intro w hok
    unfold collectOp
    unfold handleThingWithPipelines at hok ⊢
    rw [handleThingGo_ok DEFAULT_TIMEOUT now item rs ant.itemPipelines item w hok]

/-- C10 witness: with a single coroutine item stage taking 400 time-units
and `request_timeout = 1000`, `collect` still times out, because the bound
applied is the library default of 300. -/
theorem c10_witness :
    (collectOp ⟨[], [], [stageSlow], 1000, 3, 5⟩ (initialReporter 0) 0
      (PyVal.itemV 2)).result = Except.error Err.timeoutErr := by
  exact (c10_collect_default_timeout ⟨[], [], [stageSlow], 1000, 3, 5⟩ 17 0
    (initialReporter 0) (PyVal.itemV 2) stageSlow).2.1 rfl rfl (by decide)

/-- C1: when the process result of stage `k` (here the stage `p` after the
successfully traversed prefix `ps1`) is an error value, the runner never
invokes the later stages `ps2`, records the original pre-pipeline Thing —
not the stage-`k` input — as dropped under its kind exactly once (delivered
counters and other kinds untouched), and the error propagates to the caller
of `request` / `collect`. -/
theorem c1_pipeline_error_drop (T now : Nat) (rs : ReporterState) (v v2 : PyVal)
    (ps1 ps2 : List Pipeline) (p : Pipeline) (e : Err)
    (h1 : (handleThingGo T now v rs v ps1).outcome = Except.ok v2)
    (h2 : processStage T p v2 = StageOutcome.value (PyVal.exc e)) :
    (handleThingWithPipelines T now rs v (ps1 ++ p :: ps2)).outcome = Except.error e ∧
    (handleThingWithPipelines T now rs v (ps1 ++ p :: ps2)).invoked =
      ps1.map (fun q => q.id) ++ [p.id] ∧
    totalOf (handleThingWithPipelines T now rs v (ps1 ++ p :: ps2)).rstate.dropReports
      (pyClassName v) = totalOf rs.dropReports (pyClassName v) + 1 ∧
    (∀ n, n ≠ pyClassName v →
      totalOf (handleThingWithPipelines T now rs v (ps1 ++ p :: ps2)).rstate.dropReports n =
        totalOf rs.dropReports n) ∧
    (∀ n, totalOf (handleThingWithPipelines T now rs v (ps1 ++ p :: ps2)).rstate.reports n =
      totalOf rs.reports n) ∧
    (∀ ant : Ant, ant.itemPipelines = ps1 ++ p :: ps2 → T = DEFAULT_TIMEOUT →
      (collectOp ant rs now v).result = Except.error e) ∧
    (∀ (ant : Ant) (oracle : Nat → Except Err Resp),
      ant.requestPipelines = ps1 ++ p :: ps2 → T = ant.requestTimeout →
      (requestOp ant rs now v oracle).result = Except.error e ∧
      (requestOp ant rs now v oracle).transportCalls = 0) := by
  have hr2 : handleThingGo T now v rs v2 (p :: ps2) =
      ⟨Except.error e, (reportCall rs (pyClassName v) true now).1,
       (reportCall rs (pyClassName v) true now).2, [p.id]⟩ := by
    simp only [handleThingGo]
    rw [h2]
  have hfull : handleThingWithPipelines T now rs v (ps1 ++ p :: ps2) =
      ⟨Except.error e, (reportCall rs (pyClassName v) true now).1,
       (reportCall rs (pyClassName v) true now).2,
       ps1.map (fun q => q.id) ++ [p.id]⟩ := by
    unfold handleThingWithPipelines
    rw [handleThingGo_append_ok T now v rs ps1 (p :: ps2) v v2 h1, hr2]
  refine ⟨?_, ?_, ?_, ?_, ?_, ?_, ?_⟩
  · rw [hfull]
  · rw [hfull]
  · rw [hfull]
    simp only [reportCall_total_drops]
    simp
  · intro n hn
    rw [hfull]
    simp only [reportCall_total_drops]
    simp [hn]
  · intro n
    rw [hfull]
    simp only [reportCall_total_reports]
    simp
  · intro ant hip hT
    subst hT
    unfold collectOp
    rw [hip, hfull]
  · intro ant oracle hip hT
    subst hT
    unfold requestOp
    rw [hip, hfull]
    exact ⟨rfl, rfl⟩

/-- C1 witness: on the chain [return-None, drop, never-run] the original
item — not the `None` the dropping stage received — is recorded dropped,
the error surfaces, and the final stage is never invoked. -/
theorem c1_witness :
    (handleThingWithPipelines DEFAULT_TIMEOUT 0 (initialReporter 0) (PyVal.itemV 0)
      [stageNone, stageDropped, stageAfter]).outcome = Except.error (Err.thingDropped 3) ∧
    (handleThingWithPipelines DEFAULT_TIMEOUT 0 (initialReporter 0) (PyVal.itemV 0)
      [stageNone, stageDropped, stageAfter]).invoked = [2, 3] ∧
    totalOf (handleThingWithPipelines DEFAULT_TIMEOUT 0 (initialReporter 0) (PyVal.itemV 0)
      [stageNone, stageDropped, stageAfter]).rstate.dropReports "Item" = 1 := by
  have h := c1_pipeline_error_drop DEFAULT_TIMEOUT 0 (initialReporter 0) (PyVal.itemV 0)
    PyVal.noneV [stageNone] [stageAfter] stageDropped (Err.thingDropped 3) rfl rfl
  exact ⟨h.1, h.2.1, h.2.2.1⟩

/-- C3 counterexample: a stage yields a plain (non-`ThingDropped`) error
value and the runner fails with exactly that raw error value — not with a
`ThingDropped` wrapper carrying it. -/
theorem c3_counterexample :
    (handleThingWithPipelines DEFAULT_TIMEOUT 0 (initialReporter 0) (PyVal.itemV 0)
      [stageGenericErr]).outcome = Except.error (Err.generic 7) ∧
    Err.isDropErr (Err.generic 7) = false := by
  exact ⟨rfl, rfl⟩

/-- C3 (amended): when a pipeline stage yields an error value while
processing a Thing, the runner raises that error value itself, unchanged —
so it fails with `ThingDropped` exactly when the stage's error value is
itself a `ThingDropped`. -/
theorem c3_error_unchanged (T now : Nat) (rs : ReporterState) (v v2 : PyVal)
    (ps1 ps2 : List Pipeline) (p : Pipeline) (e : Err)
    (h1 : (handleThingGo T now v rs v ps1).outcome = Except.ok v2)
    (h2 : processStage T p v2 = StageOutcome.value (PyVal.exc e)) :
    (handleThingWithPipelines T now rs v (ps1 ++ p :: ps2)).outcome = Except.error e := by
  have hr2 : handleThingGo T now v rs v2 (p :: ps2) =
      ⟨Except.error e, (reportCall rs (pyClassName v) true now).1,
       (reportCall rs (pyClassName v) true now).2, [p.id]⟩ := by
    simp only [handleThingGo]
    rw [h2]
  unfold handleThingWithPipelines
  rw [handleThingGo_append_ok T now v rs ps1 (p :: ps2) v v2 h1, hr2]

/-- C3 witness: the single-stage chain returning a generic error value makes
the runner fail with that very error value. -/
theorem c3_witness :
    (handleThingWithPipelines DEFAULT_TIMEOUT 0 (initialReporter 5) (PyVal.requestV 1)
      [stageGenericErr]).outcome = Except.error (Err.generic 7) := by
  exact c3_error_unchanged DEFAULT_TIMEOUT 0 (initialReporter 5) (PyVal.requestV 1)
    (PyVal.requestV 1) [] [] stageGenericErr (Err.generic 7) rfl rfl

/-- C6: a cached session for the request's host is reused (same identity,
no new cache entry, other hosts untouched); a new session is created only on
the first request to a host, seeded with that request's cookies and cached;
on reuse the request's cookies are merged into the existing jar as a union
in which duplicate names take the new value; and in a well-formed pool two
different hosts never share a session. -/
theorem c6_session_pool (pool : SessionPool) (host : String)
    (cookies : Option (List (String × String))) :
    (∀ s, lookupSession pool.sessions host = some s →
      (acquireSession pool host cookies).1.sid = s.sid ∧
      (acquireSession pool host cookies).2.nextSid = pool.nextSid ∧
      (acquireSession pool host cookies).2.sessions.map Prod.fst =
        pool.sessions.map Prod.fst ∧
      (∀ h2, h2 ≠ host →
        lookupSession (acquireSession pool host cookies).2.sessions h2 =
          lookupSession pool.sessions h2)) ∧
    (∀ s cs, lookupSession pool.sessions host = some s → cookies = some cs →
      (cs.map Prod.fst).Nodup →
      lookupSession (acquireSession pool host cookies).2.sessions host =
        some ⟨s.sid, updateCookies s.cookieJar cs⟩ ∧
      (∀ k, cookieVal (updateCookies s.cookieJar cs) k =
        (match cookieVal cs k with
         | some w => some w
         | none => cookieVal s.cookieJar k))) ∧
    (lookupSession pool.sessions host = none →
      (acquireSession pool host cookies).1.sid = pool.nextSid ∧
      (acquireSession pool host cookies).2.nextSid = pool.nextSid + 1 ∧
      lookupSession (acquireSession pool host cookies).2.sessions host =
        some (acquireSession pool host cookies).1 ∧
      (acquireSession pool host cookies).1.cookieJar =
        (match cookies with
         | some cs => updateCookies [] cs
         | none => []) ∧
      (∀ h2, h2 ≠ host →
        lookupSession (acquireSession pool host cookies).2.sessions h2 =
          lookupSession pool.sessions h2)) ∧
    (PoolWF pool →
      PoolWF (acquireSession pool host cookies).2 ∧
      ∀ h1 h2 s1 s2, h1 ≠ h2 →
        lookupSession (acquireSession pool host cookies).2.sessions h1 = some s1 →
        lookupSession (acquireSession pool host cookies).2.sessions h2 = some s2 →
        s1.sid ≠ s2.sid) := by
  refine ⟨?_, ?_, ?_, ?_⟩
  · intro s hl
    cases cookies with
    | none =>
      have hacq : acquireSession pool host none = (s, pool) := by
        unfold acquireSession
        rw [hl]
      rw [hacq]
      exact ⟨rfl, rfl, rfl, fun h2 _ => rfl⟩
    | some cs =>
      have hacq : acquireSession pool host (some cs) =
          (⟨s.sid, updateCookies s.cookieJar cs⟩,
           ⟨setSession pool.sessions host ⟨s.sid, updateCookies s.cookieJar cs⟩,
            pool.nextSid⟩) := by
        unfold acquireSession
        rw [hl]
      rw [hacq]
      exact ⟨rfl, rfl, setSession_keys pool.sessions host s _ hl,
        fun h2 hne => lookupSession_setSession_other pool.sessions host h2 _ hne⟩
  · intro s cs hl hc hnd
    subst hc
    have hacq : acquireSession pool host (some cs) =
        (⟨s.sid, updateCookies s.cookieJar cs⟩,
         ⟨setSession pool.sessions host ⟨s.sid, updateCookies s.cookieJar cs⟩,
          pool.nextSid⟩) := by
      unfold acquireSession
      rw [hl]
    rw [hacq]
    exact ⟨lookupSession_setSession_self pool.sessions host _,
      fun k => cookieVal_updateCookies cs s.cookieJar k hnd⟩
  · intro hl
    have hacq : acquireSession pool host cookies =
        (⟨pool.nextSid,
          match cookies with
          | some cs => updateCookies [] cs
          | none => []⟩,
         ⟨pool.sessions ++
            [(host, ⟨pool.nextSid,
              match cookies with
              | some cs => updateCookies [] cs
              | none => []⟩)],
          pool.nextSid + 1⟩) := by
      unfold acquireSession
      rw [hl]
    rw [hacq]
    exact ⟨rfl, rfl, lookupSession_append_new pool.sessions host _ hl, rfl,
      fun h2 hne => lookupSession_append_other pool.sessions host h2 _ hne⟩
  · intro hwf
    have hwf2 := poolWF_acquire pool host cookies hwf
    exact ⟨hwf2, fun h1 h2 s1 s2 hne hl1 hl2 =>
      poolWF_distinct (acquireSession pool host cookies).2 hwf2 h1 h2 s1 s2 hne hl1 hl2⟩

/-- C6 witness: merging new cookies into the cached session for host `"a"`
keeps the non-overlapping old cookie, overwrites the duplicate name with
the new value, and stores the merged jar under the same session identity. -/
theorem c6_witness :
    lookupSession (acquireSession poolA "a" (some [("x", "9"), ("z", "3")])).2.sessions "a" =
      some ⟨0, [("x", "9"), ("y", "2"), ("z", "3")]⟩ := by
  have h := (c6_session_pool poolA "a" (some [("x", "9"), ("z", "3")])).2.1
    ⟨0, [("x", "1"), ("y", "2")]⟩ [("x", "9"), ("z", "3")] rfl rfl (by decide)
  rw [h.1]
  rfl

/-- C8: on a record call after more than the report interval (default 60)
has elapsed since the last flush, the reporter logs every tracked kind's
running total and its delta since the last flush, for delivered and dropped
counters alike, rebaselines (every baseline becomes the pre-call total) and
stamps the flush time; and on every record call the running totals are
never reset — they change only by the single increment being recorded. -/
theorem c8_report_flush (rs : ReporterState) (name : String) (dropped : Bool) (now : Nat) :
    (now - rs.lastTime > rs.reportSlot →
      (∀ p ∈ rs.reports,
        (⟨false, p.1, p.2.total, p.2.total - p.2.baseline⟩ : LogEntry) ∈
          (reportCall rs name dropped now).2) ∧
      (∀ p ∈ rs.dropReports,
        (⟨true, p.1, p.2.total, p.2.total - p.2.baseline⟩ : LogEntry) ∈
          (reportCall rs name dropped now).2) ∧
      (∀ k, baselineOf (reportCall rs name dropped now).1.reports k =
        totalOf rs.reports k) ∧
      (∀ k, baselineOf (reportCall rs name dropped now).1.dropReports k =
        totalOf rs.dropReports k) ∧
      (reportCall rs name dropped now).1.lastTime = now) ∧
    (∀ k, totalOf (reportCall rs name dropped now).1.reports k =
      totalOf rs.reports k + (if dropped = false ∧ k = name then 1 else 0)) ∧
    (∀ k, totalOf (reportCall rs name dropped now).1.dropReports k =
      totalOf rs.dropReports k + (if dropped = true ∧ k = name then 1 else 0)) ∧
    (∀ start, (initialReporter start).reportSlot = 60) := by
  refine ⟨?_, ?_, ?_, fun _ => rfl⟩
  · intro hf
    refine ⟨?_, ?_, ?_, ?_, ?_⟩
    · intro p hp
      rw [reportCall_logs rs name dropped now hf]
      exact List.mem_append_left _ (flushMap_log_mem false rs.reports p hp)
    · intro p hp
      rw [reportCall_logs rs name dropped now hf]
      exact List.mem_append_right _ (flushMap_log_mem true rs.dropReports p hp)
    · intro k
      exact reportCall_baseline_reports rs name dropped now k hf
    · intro k
      exact reportCall_baseline_drops rs name dropped now k hf
    · rw [reportCall_lastTime, if_pos hf]
  · intro k
    exact reportCall_total_reports rs name dropped now k
  · intro k
    exact reportCall_total_drops rs name dropped now k

/-- C8 witness: at `now = 100`, more than 60 after the last flush at 0, a
record call logs the Item totals and the delta 3, and the Item running
total only increments to 6 — it is not reset. -/
theorem c8_witness :
    (⟨false, "Item", 5, 3⟩ : LogEntry) ∈ (reportCall reporterBusy "Item" false 100).2 ∧
    totalOf (reportCall reporterBusy "Item" false 100).1.reports "Item" = 6 ∧
    baselineOf (reportCall reporterBusy "Item" false 100).1.reports "Item" = 5 := by
  have h := c8_report_flush reporterBusy "Item" false 100
  refine ⟨?_, ?_, ?_⟩
  · exact (h.1 (by decide)).1 ("Item", ⟨2, 5⟩) (by decide)
  · rw [h.2.1 "Item"]
    decide
  · rw [(h.1 (by decide)).2.2.1 "Item"]
    decide

end AntNest
